import Mathlib

/-!
Shallow embedding of the cretonne function-level IR core
(`src/lib/codegen/src/ir/function.rs` and `src/lib/codegen/src/print_errors.rs`),
together with theorems settling the specification claims about it.

Entity handles are small integers assigned in creation order, so every handle
type is embedded as `Nat`.  Collaborator types that live outside the two source
files (the entity arenas, `Signature`, the data-flow graph, the layout, the
target-ISA encoder, `write_function`, and the error types) are modelled from the
specification at their interface boundary; each such definition carries a doc
comment saying so.
-/

namespace Cretonne

/-- Stack slot handle. -/
abbrev StackSlot := Nat

/-- Global variable handle. -/
abbrev GlobalVar := Nat

/-- Heap handle. -/
abbrev Heap := Nat

/-- Jump table handle. -/
abbrev JumpTable := Nat

/-- Extended basic block handle. -/
abbrev Ebb := Nat

/-- Instruction handle. -/
abbrev Inst := Nat

/-- SSA value handle. -/
abbrev Value := Nat

/-- Imported-signature handle. -/
abbrev SigRef := Nat

/-- Imported-function handle. -/
abbrev FuncRef := Nat

/-- Byte offset in emitted code (`binemit::CodeOffset`). -/
abbrev CodeOffset := Nat

/-- Opaque payload of a declared stack slot. -/
abbrev StackSlotData := Nat

/-- Opaque payload of a declared global variable. -/
abbrev GlobalVarData := Nat

/-- Opaque payload of a declared heap. -/
abbrev HeapData := Nat

/-- Opaque payload of an external-function import declaration. -/
abbrev ExtFuncData := Nat

/-- Opaque per-instruction data stored in the data-flow graph. -/
abbrev InstructionData := Nat

/-- Opaque value location (register or stack slot assignment). -/
abbrev ValueLoc := Nat

/-- Opaque source location attached to an instruction. -/
abbrev SourceLoc := Nat

/-- Opaque argument-purpose tag on a signature parameter. -/
abbrev ArgumentPurpose := Nat

/-- External symbolic name of a function; `0` is the default (anonymous) name. -/
abbrev ExternalName := Nat

/-- Modelled from the spec: the generic append-only, index-addressed entity
arena (`PrimaryMap` of the `entity` crate, outside `src/`).  `push` appends and
returns the handle, lookup is by index, `clear` empties, there is no removal. -/
structure PrimaryMap (α : Type) where
  data : List α
deriving DecidableEq

/-- Modelled from the spec: a fresh, empty arena. -/
def PrimaryMap.new {α : Type} : PrimaryMap α := ⟨[]⟩

/-- Modelled from the spec: append a value, returning its handle (the previous
length) together with the grown arena. -/
def PrimaryMap.push {α : Type} (m : PrimaryMap α) (v : α) : Nat × PrimaryMap α :=
  (m.data.length, ⟨m.data ++ [v]⟩)

/-- Modelled from the spec: handle lookup; `none` corresponds to the fatal
out-of-range panic of the Rust indexing operator. -/
def PrimaryMap.get? {α : Type} (m : PrimaryMap α) (k : Nat) : Option α :=
  m.data.get? k

/-- Modelled from the spec: in-place overwrite through an existing handle
(the `IndexMut` path of the arena). -/
def PrimaryMap.set {α : Type} (m : PrimaryMap α) (k : Nat) (v : α) : PrimaryMap α :=
  ⟨m.data.set k v⟩

/-- Modelled from the spec: number of entries. -/
def PrimaryMap.len {α : Type} (m : PrimaryMap α) : Nat :=
  m.data.length

/-- Modelled from the spec: empty the arena (capacity retention is not
observable). -/
def PrimaryMap.clear {α : Type} (_ : PrimaryMap α) : PrimaryMap α := ⟨[]⟩

/-- Modelled from the spec: a side table keyed by an entity handle,
default-valued until explicitly assigned (`EntityMap` of the `entity` crate,
outside `src/`).  Reads of unassigned keys yield the caller-supplied default. -/
structure EntityMap (α : Type) where
  entries : List (Nat × α)
deriving DecidableEq

/-- Modelled from the spec: a fresh, empty side table. -/
def EntityMap.new {α : Type} : EntityMap α := ⟨[]⟩

/-- Modelled from the spec: read the value assigned to key `k`, or the default
`dflt` when no assignment has been made. -/
def EntityMap.get {α : Type} (m : EntityMap α) (dflt : α) (k : Nat) : α :=
  match m.entries.find? (fun p => p.1 == k) with
  | some p => p.2
  | none => dflt

/-- Modelled from the spec: assign value `v` to key `k`. -/
def EntityMap.set {α : Type} (m : EntityMap α) (k : Nat) (v : α) : EntityMap α :=
  ⟨(k, v) :: m.entries⟩

/-- Modelled from the spec: whether no assignment has ever been made. -/
def EntityMap.is_empty {α : Type} (m : EntityMap α) : Bool :=
  m.entries.isEmpty

/-- Modelled from the spec: empty the side table. -/
def EntityMap.clear {α : Type} (_ : EntityMap α) : EntityMap α := ⟨[]⟩

/-- Calling convention tag.  Modelled from the spec: `Fast` is the baseline. -/
inductive CallConv where
  | fast
  | cold
  | native
deriving DecidableEq

/-- Modelled from the spec: one parameter or return descriptor of a signature,
carrying a value type and a special purpose tag. -/
structure AbiParam where
  vtype : Nat
  purpose : ArgumentPurpose
deriving DecidableEq

/-- Modelled from the spec: a function signature — calling convention plus
parameter and return descriptors (`Signature` lives outside `src/`). -/
structure Signature where
  params : List AbiParam
  returns : List AbiParam
  call_conv : CallConv
deriving DecidableEq

/-- Modelled from the spec: a fresh signature with the given calling
convention and no parameters or returns. -/
def Signature.new (cc : CallConv) : Signature :=
  ⟨[], [], cc⟩

/-- Modelled from the spec: `Signature::clear(call_conv)` empties the parameter
and return lists and resets the calling convention to the given one. -/
def Signature.clear (_ : Signature) (cc : CallConv) : Signature :=
  ⟨[], [], cc⟩

/-- Index of the last element of `l` satisfying `p`, or `none`. -/
def lastMatchIdx {α : Type} (p : α → Bool) : List α → Option Nat
  | [] => none
  | a :: rest =>
    match lastMatchIdx p rest with
    | some i => some (i + 1)
    | none => if p a then some 0 else none

/-- Modelled from the spec: `Signature::special_param_index(purpose)` returns
the index of the **last** parameter with the given purpose ("last matching
parameter wins"), or `none` when no parameter has that purpose. -/
def Signature.special_param_index (sig : Signature) (purpose : ArgumentPurpose) : Option Nat :=
  lastMatchIdx (fun p => p.purpose == purpose) sig.params

/-- Modelled from the spec: the data-flow graph collaborator, specified only at
its interface boundary — the imported-signature and imported-function arenas,
per-instruction data and controlling type variables, and the parameter values
of each block. -/
structure DataFlowGraph where
  signatures : PrimaryMap Signature
  ext_funcs : PrimaryMap ExtFuncData
  inst_data_tbl : List InstructionData
  ctrl_type_tbl : List Nat
  ebb_params_tbl : List (Ebb × List Value)
deriving DecidableEq

/-- Modelled from the spec: a fresh, empty data-flow graph. -/
def DataFlowGraph.new : DataFlowGraph :=
  ⟨PrimaryMap.new, PrimaryMap.new, [], [], []⟩

/-- Modelled from the spec: `DataFlowGraph::clear` empties every internal
arena. -/
def DataFlowGraph.clear (_ : DataFlowGraph) : DataFlowGraph :=
  DataFlowGraph.new

/-- Modelled from the spec: the data of instruction `i`. -/
def DataFlowGraph.inst_data (dfg : DataFlowGraph) (i : Inst) : InstructionData :=
  dfg.inst_data_tbl.getD i 0

/-- Modelled from the spec: the controlling type variable of instruction `i`,
the type that disambiguates polymorphic instructions. -/
def DataFlowGraph.ctrl_typevar (dfg : DataFlowGraph) (i : Inst) : Nat :=
  dfg.ctrl_type_tbl.getD i 0

/-- Modelled from the spec: the parameter values of block `e`. -/
def DataFlowGraph.ebb_params (dfg : DataFlowGraph) (e : Ebb) : List Value :=
  match dfg.ebb_params_tbl.find? (fun p => p.1 == e) with
  | some p => p.2
  | none => []

/-- Modelled from the spec: the layout collaborator — blocks in program order,
each with its instructions in program order. -/
structure Layout where
  ebbs : List (Ebb × List Inst)
deriving DecidableEq

/-- Modelled from the spec: a fresh, empty layout. -/
def Layout.new : Layout := ⟨[]⟩

/-- Modelled from the spec: `Layout::clear` empties the layout. -/
def Layout.clear (_ : Layout) : Layout := ⟨[]⟩

/-- Modelled from the spec: the entry block is the first block of the layout,
or `none` when the function has no blocks. -/
def Layout.entry_block (l : Layout) : Option Ebb :=
  l.ebbs.head?.map Prod.fst

/-- Modelled from the spec: the instructions of block `e` in program order. -/
def Layout.ebb_insts (l : Layout) (e : Ebb) : List Inst :=
  match l.ebbs.find? (fun p => p.1 == e) with
  | some p => p.2
  | none => []

/-- An encoding: an opaque (recipe index, encoding bits) pair.  The default
value `none` means "unencoded/illegal", not a valid recipe. -/
abbrev Encoding := Option (Nat × Nat)

/-- The default encoding value held by the `encodings` side table for illegal
or not-yet-encoded instructions. -/
def defaultEncoding : Encoding := none

/-- Modelled from the spec: one jump table — an ordered sequence of target
block handles, fixed length at creation, individually mutable by index
(`JumpTableData` lives outside `src/`).  `none` entries are the creation-time
placeholders. -/
structure JumpTableData where
  table : List (Option Ebb)
deriving DecidableEq

/-- Modelled from the spec: the fixed length of the jump table. -/
def JumpTableData.len (jt : JumpTableData) : Nat :=
  jt.table.length

/-- Modelled from the spec: read entry `idx`; `none` corresponds to the fatal
out-of-range panic. -/
def JumpTableData.get_entry (jt : JumpTableData) (idx : Nat) : Option (Option Ebb) :=
  jt.table.get? idx

/-- Modelled from the spec: `set_entry(idx, ebb)` requires `idx` within the
existing length and overwrites that entry; an out-of-range index is a fatal
contract violation, embedded as `none`. -/
def JumpTableData.set_entry (jt : JumpTableData) (idx : Nat) (e : Ebb) : Option JumpTableData :=
  if idx < jt.table.length then some ⟨jt.table.set idx (some e)⟩ else none

/-- The function container of `ir/function.rs`: name, signature, declaration
tables, data-flow graph, layout, and the per-instruction/per-value side
tables. -/
structure Function where
  name : ExternalName
  signature : Signature
  stack_slots : PrimaryMap StackSlotData
  stack_limit : Option GlobalVar
  global_vars : PrimaryMap GlobalVarData
  heaps : PrimaryMap HeapData
  jump_tables : PrimaryMap JumpTableData
  dfg : DataFlowGraph
  layout : Layout
  encodings : EntityMap Encoding
  locations : EntityMap ValueLoc
  offsets : EntityMap CodeOffset
  srclocs : EntityMap SourceLoc
deriving DecidableEq

/-- `Function::with_name_signature`: construct with the given name and
signature and all tables empty. -/
def Function.with_name_signature (name : ExternalName) (sig : Signature) : Function where
  name := name
  signature := sig
  stack_slots := PrimaryMap.new
  stack_limit := none
  global_vars := PrimaryMap.new
  heaps := PrimaryMap.new
  jump_tables := PrimaryMap.new
  dfg := DataFlowGraph.new
  layout := Layout.new
  encodings := EntityMap.new
  locations := EntityMap.new
  offsets := EntityMap.new
  srclocs := EntityMap.new

/-- `Function::new`: a new empty, anonymous function with the Fast calling
convention. -/
def Function.new : Function :=
  Function.with_name_signature 0 (Signature.new CallConv.fast)

/-- `Function::clear`: resets the signature to the Fast baseline and empties
every table.  Mirrors the source statement by statement: the `name` and
`stack_limit` fields are not touched. -/
def Function.clear (f : Function) : Function where
  name := f.name
  signature := f.signature.clear CallConv.fast
  stack_slots := f.stack_slots.clear
  stack_limit := f.stack_limit
  global_vars := f.global_vars.clear
  heaps := f.heaps.clear
  jump_tables := f.jump_tables.clear
  dfg := f.dfg.clear
  layout := f.layout.clear
  encodings := f.encodings.clear
  locations := f.locations.clear
  offsets := f.offsets.clear
  srclocs := f.srclocs.clear

/-- `Function::create_jump_table`: append the data, returning its handle. -/
def Function.create_jump_table (f : Function) (data : JumpTableData) : JumpTable × Function :=
  let r := f.jump_tables.push data
  (r.1, { f with jump_tables := r.2 })

/-- `Function::insert_jump_table_entry`: overwrite entry `index` of the
previously declared jump table `jt`; `none` embeds the fatal panic on an
unknown handle or an out-of-range index. -/
def Function.insert_jump_table_entry (f : Function) (jt : JumpTable) (index : Nat) (ebb : Ebb) :
    Option Function :=
  match f.jump_tables.get? jt with
  | none => none
  | some data =>
    match data.set_entry index ebb with
    | none => none
    | some d => some { f with jump_tables := f.jump_tables.set jt d }

/-- `Function::create_stack_slot`: append the data, returning its handle. -/
def Function.create_stack_slot (f : Function) (data : StackSlotData) : StackSlot × Function :=
  let r := f.stack_slots.push data
  (r.1, { f with stack_slots := r.2 })

/-- `Function::set_stack_limit`: swap in the new stack limit and return the
previous one. -/
def Function.set_stack_limit (f : Function) (stack_limit : Option GlobalVar) :
    Option GlobalVar × Function :=
  (f.stack_limit, { f with stack_limit := stack_limit })

/-- `Function::import_signature`: push onto the data-flow graph's signature
arena, returning the handle. -/
def Function.import_signature (f : Function) (signature : Signature) : SigRef × Function :=
  let r := f.dfg.signatures.push signature
  (r.1, { f with dfg := { f.dfg with signatures := r.2 } })

/-- `Function::import_function`: push onto the data-flow graph's external
function arena, returning the handle. -/
def Function.import_function (f : Function) (data : ExtFuncData) : FuncRef × Function :=
  let r := f.dfg.ext_funcs.push data
  (r.1, { f with dfg := { f.dfg with ext_funcs := r.2 } })

/-- `Function::create_global_var`: append the data, returning its handle. -/
def Function.create_global_var (f : Function) (data : GlobalVarData) : GlobalVar × Function :=
  let r := f.global_vars.push data
  (r.1, { f with global_vars := r.2 })

/-- `Function::create_heap`: append the data, returning its handle. -/
def Function.create_heap (f : Function) (data : HeapData) : Heap × Function :=
  let r := f.heaps.push data
  (r.1, { f with heaps := r.2 })

/-- `Function::special_param`: look up the entry block (fatal "Function is
empty" when the layout has no blocks, embedded as `Except.error`) and return
the value bound to the last signature parameter with the given purpose. -/
def Function.special_param (f : Function) (purpose : ArgumentPurpose) :
    Except String (Option Value) :=
  match f.layout.entry_block with
  | none => Except.error ("Function is empty")
  | some entry =>
    Except.ok ((f.signature.special_param_index purpose).map
      (fun i => (f.dfg.ebb_params entry).getD i 0))

/-- Modelled from the spec: the encoding-info lookup of the target-ISA
collaborator.  `recipe_bytes` gives the byte size of each valid recipe. -/
structure EncInfo where
  recipe_bytes : Nat × Nat → Nat

/-- Modelled from the spec: `EncInfo::bytes(encoding)` — the byte size of an
encoded instruction, 0 for the default/unencoded encoding. -/
def EncInfo.bytes (ei : EncInfo) (e : Encoding) : Nat :=
  match e with
  | none => 0
  | some r => ei.recipe_bytes r

/-- The body of `InstOffsetIter::next`, unrolled over the whole instruction
list: each step reads the stored encoding of the current instruction, takes its
byte size from `encinfo` (0 if unencoded), emits the running offset, then
advances the running offset by that size. -/
def instOffsetsFrom (encinfo : EncInfo) (encodings : EntityMap Encoding) (offset : CodeOffset) :
    List Inst → List (CodeOffset × Inst × CodeOffset)
  | [] => []
  | i :: rest =>
    let size := encinfo.bytes (encodings.get defaultEncoding i)
    (offset, i, size) :: instOffsetsFrom encinfo encodings (offset + size) rest

/-- `Function::inst_offsets`: asserts that the offsets table is non-empty
("Code layout must be computed first", embedded as `none`), then iterates the
block's instructions starting from the block's precomputed start offset. -/
def Function.inst_offsets (f : Function) (ebb : Ebb) (encinfo : EncInfo) :
    Option (List (CodeOffset × Inst × CodeOffset)) :=
  if f.offsets.is_empty then none
  else some (instOffsetsFrom encinfo f.encodings (f.offsets.get 0 ebb) (f.layout.ebb_insts ebb))

/-- A legalization directive: the recoverable outcome of a failed encoding
attempt, describing how to transform the instruction. -/
structure Legalize where
  directive : Nat
deriving DecidableEq

/-- Modelled from the spec: the target-instruction-set collaborator, specified
only at its interface boundary — an encoder taking the function, the
instruction's data and its controlling type variable, returning either an
encoding or a legalization directive. -/
structure TargetIsa where
  encodeFn : Function → InstructionData → Nat → Except Legalize Encoding

/-- `Function::encode`: delegate to the target ISA's encoder, passing the
instruction's data and controlling type variable.  Pure query. -/
def Function.encode (f : Function) (inst : Inst) (isa : TargetIsa) : Except Legalize Encoding :=
  isa.encodeFn f (f.dfg.inst_data inst) (f.dfg.ctrl_typevar inst)

/-- `Function::update_encoding`: wrapper around `encode` which on success
assigns `inst` the resulting encoding; on failure the function is returned
unchanged together with the directive. -/
def Function.update_encoding (f : Function) (inst : Inst) (isa : TargetIsa) :
    Except Legalize Unit × Function :=
  match f.encode inst isa with
  | Except.ok e => (Except.ok (), { f with encodings := f.encodings.set inst e })
  | Except.error l => (Except.error l, f)

/-- Modelled from the spec: `write_function` (in `write.rs`, outside `src/`).
The textual rendering is not specified bit-exactly; it is ISA-aware exactly
when a context is supplied, and otherwise architecture-neutral. -/
def write_function (f : Function) (isa : Option TargetIsa) : String :=
  let annot := match isa with
    | some _ => " ; isa-specific"
    | none => ""
  "function u0:" ++ toString f.name ++ "(" ++ toString f.signature.params.length ++ ")"
    ++ annot ++ "\n"
    ++ "  ss=" ++ toString f.stack_slots.len
    ++ " gv=" ++ toString f.global_vars.len
    ++ " heap=" ++ toString f.heaps.len
    ++ " jt=" ++ toString f.jump_tables.len ++ "\n"

/-- `DisplayFunction`: a function paired with an optional ISA context,
capable of rendering the function. -/
structure DisplayFunction where
  func : Function
  isa : Option TargetIsa

/-- `impl Display for DisplayFunction`: render via `write_function` with the
captured ISA context. -/
def DisplayFunction.fmt (d : DisplayFunction) : String :=
  write_function d.func d.isa

/-- `Function::display`: produce a display wrapper bound to this function and
an optional ISA context. -/
def Function.display (f : Function) (isa : Option TargetIsa) : DisplayFunction :=
  ⟨f, isa⟩

/-- `impl Display for Function`: render via `write_function` with no ISA
context. -/
def Function.fmtDisplay (f : Function) : String :=
  write_function f none

/-- `impl Debug for Function`: render via `write_function` with no ISA
context. -/
def Function.fmtDebug (f : Function) : String :=
  write_function f none

/-- Rendering of an instruction handle (`inst5` style). -/
def instName (i : Inst) : String :=
  "inst" ++ toString i

/-- Modelled from the spec: the entity-location attached to a verifier error;
only the instruction-scoped case triggers the detailed rendering. -/
inductive AnyEntity where
  | functionEntity
  | ebb (e : Ebb)
  | inst (i : Inst)
  | stackSlot (s : StackSlot)
deriving DecidableEq

/-- Modelled from the spec: rendering of an entity location. -/
def AnyEntity.render : AnyEntity → String
  | AnyEntity.functionEntity => "function"
  | AnyEntity.ebb e => "ebb" ++ toString e
  | AnyEntity.inst i => instName i
  | AnyEntity.stackSlot s => "ss" ++ toString s

/-- Modelled from the spec: a verifier error carrying an entity location plus a
human-readable message (`VerifierError` lives outside `src/`). -/
structure VerifierError where
  location : AnyEntity
  message : String
deriving DecidableEq

/-- Modelled from the spec: `VerifierError::to_string` — the error's own
rendering, location plus message. -/
def VerifierError.to_string (e : VerifierError) : String :=
  e.location.render ++ ": " ++ e.message

/-- Modelled from the spec: the dropdown rendering of a single instruction by
the data-flow graph (`dfg.display_inst`), ISA-aware when a context is given. -/
def DataFlowGraph.display_inst (dfg : DataFlowGraph) (i : Inst) (isa : Option TargetIsa) : String :=
  let annot := match isa with
    | some _ => "[enc] "
    | none => ""
  annot ++ "op" ++ toString (dfg.inst_data i)

/-- Modelled from the spec: the generic compiler error (`CodegenError`, outside
`src/`): either a verifier error or some other kind rendered as its plain
description. -/
inductive CodegenError where
  | verifier (e : VerifierError)
  | other (desc : String)
deriving DecidableEq

/-- Modelled from the spec: `CodegenError::to_string` — the verifier variant
renders its inner error, any other kind renders its plain description. -/
def CodegenError.to_string : CodegenError → String
  | CodegenError.verifier e => e.to_string
  | CodegenError.other desc => desc

/-- `pretty_verifier_error`: the error message, then — when the error is
instruction-scoped — the offending instruction's own rendering, then a dump of
the whole function via its display capability. -/
def pretty_verifier_error (func : Function) (isa : Option TargetIsa) (err : VerifierError) :
    String :=
  let msg := err.to_string
  let msg := match err.location with
    | AnyEntity.inst i =>
      msg ++ "\n" ++ instName i ++ ": " ++ func.dfg.display_inst i isa ++ "\n\n"
    | _ => msg ++ "\n"
  msg ++ (func.display isa).fmt

/-- `pretty_error`: unwrap a verifier error into the detailed form; render any
other error kind as its own description. -/
def pretty_error (func : Function) (isa : Option TargetIsa) (err : CodegenError) : String :=
  match err with
  | CodegenError.verifier e => pretty_verifier_error func isa e
  | _ => err.to_string

/-- One declaration step on a function: any of the four `create*` calls. -/
inductive Decl where
  | stackSlot (d : StackSlotData)
  | globalVar (d : GlobalVarData)
  | heap (d : HeapData)
  | jumpTable (d : JumpTableData)

/-- Apply one declaration to a function, discarding the returned handle. -/
def applyDecl (f : Function) (d : Decl) : Function :=
  match d with
  | Decl.stackSlot v => (f.create_stack_slot v).2
  | Decl.globalVar v => (f.create_global_var v).2
  | Decl.heap v => (f.create_heap v).2
  | Decl.jumpTable v => (f.create_jump_table v).2

/-- Apply a sequence of declarations in order. -/
def applyDecls (f : Function) : List Decl → Function
  | [] => f
  | d :: ds => applyDecls (applyDecl f d) ds

/-- A function whose stack limit has been set, for exercising `clear`. -/
def exStackLimitFun : Function :=
  { Function.new with stack_limit := some 0 }

/-- An encoding-info table whose byte size is the recipe index. -/
def exEncInfo : EncInfo :=
  ⟨fun r => r.1⟩

/-- A function with one block of three instructions encoded with sizes 2, 4
and 2 bytes, and a completed offset pass placing the block at offset 0. -/
def exOffsetsFun : Function :=
  { Function.new with
      layout := ⟨[(0, [1, 2, 3])]⟩
      encodings := ((EntityMap.new.set 1 (some (2, 0))).set 2 (some (4, 0))).set 3 (some (2, 0))
      offsets := EntityMap.new.set 0 0 }

/-- A function with instruction data for two instructions. -/
def exEncodeFun : Function :=
  { Function.new with dfg := { DataFlowGraph.new with inst_data_tbl := [0, 1] } }

/-- An ISA whose encoder accepts instruction data `1` and legalizes
everything else. -/
def exIsa : TargetIsa :=
  ⟨fun _ d _ => if d == 1 then Except.ok (some (7, 7)) else Except.error ⟨42⟩⟩

/-- A function with an entry block, three parameters whose purposes are
1, 2, 2, and entry-block parameter values 10, 11, 12. -/
def exSpecialFun : Function :=
  { Function.new with
      signature := ⟨[⟨0, 1⟩, ⟨0, 2⟩, ⟨0, 2⟩], [], CallConv.fast⟩
      layout := ⟨[(0, [])]⟩
      dfg := { DataFlowGraph.new with ebb_params_tbl := [(0, [10, 11, 12])] } }

/-- A jump table of length 2 with placeholder entries. -/
def exJTData : JumpTableData :=
  ⟨[none, none]⟩

/-- A function with one stack slot already declared. -/
def exC8Base : Function :=
  (Function.new.create_stack_slot 5).2

/-- A sample sequence of later declarations. -/
def exC8Decls : List Decl :=
  [Decl.heap 3, Decl.stackSlot 9, Decl.jumpTable ⟨[none]⟩, Decl.globalVar 4]

/-- An instruction-scoped verifier error. -/
def exVerifierErr : VerifierError :=
  ⟨AnyEntity.inst 3, "bad instruction"⟩

/-! ### Helper lemmas about lists and the modelled collections -/

theorem list_get?_append_left {α : Type} :
    ∀ (l1 l2 : List α) (k : Nat), k < l1.length → (l1 ++ l2).get? k = l1.get? k := by
  intro l1
  induction l1 with
  | nil => intro l2 k hk; exact absurd hk (Nat.not_lt_zero k)
  | cons a t ih =>
    intro l2 k hk
    cases k with
    | zero => rfl
    | succ k => exact ih l2 k (Nat.lt_of_succ_lt_succ hk)

theorem list_get?_concat_self {α : Type} :
    ∀ (l : List α) (a : α), (l ++ [a]).get? l.length = some a := by
  intro l
  induction l with
  | nil => intro a; rfl
  | cons b t ih => intro a; exact ih a

theorem list_get?_set_self {α : Type} :
    ∀ (l : List α) (i : Nat) (a : α), i < l.length → (l.set i a).get? i = some a := by
  intro l
  induction l with
  | nil => intro i a hi; exact absurd hi (Nat.not_lt_zero i)
  | cons b t ih =>
    intro i a hi
    cases i with
    | zero => rfl
    | succ i => exact ih i a (Nat.lt_of_succ_lt_succ hi)

theorem list_get?_set_ne {α : Type} :
    ∀ (l : List α) (i j : Nat) (a : α), i ≠ j → (l.set i a).get? j = l.get? j := by
  intro l
  induction l with
  | nil => intro i j a _; cases i <;> rfl
  | cons b t ih =>
    intro i j a hne
    cases i with
    | zero =>
      cases j with
      | zero => exact absurd rfl hne
      | succ j => rfl
    | succ i =>
      cases j with
      | zero => rfl
      | succ j => exact ih i j a (fun h => hne (congrArg Nat.succ h))

theorem entityMap_get_set_self {α : Type} (m : EntityMap α) (d : α) (k : Nat) (v : α) :
    (m.set k v).get d k = v := by
  simp [EntityMap.get, EntityMap.set, List.find?]

theorem entityMap_get_set_ne {α : Type} (m : EntityMap α) (d : α) (k j : Nat) (v : α)
    (hne : j ≠ k) : (m.set k v).get d j = m.get d j := by
  simp only [EntityMap.get, EntityMap.set, List.find?]
  have : (k == j) = false := beq_eq_false_iff_ne.mpr (fun h => hne h.symm)
  simp [this]

theorem list_get?_some_lt {α : Type} :
    ∀ (l : List α) (n : Nat) (x : α), l.get? n = some x → n < l.length := by
  intro l
  induction l with
  | nil => intro n x h; cases n <;> simp [List.get?] at h
  | cons a t ih =>
    intro n x h
    cases n with
    | zero => exact Nat.succ_pos _
    | succ n => exact Nat.succ_lt_succ (ih n x h)

theorem list_getD_of_get? {α : Type} :
    ∀ (l : List α) (n : Nat) (d x : α), l.get? n = some x → l.getD n d = x := by
  intro l
  induction l with
  | nil => intro n d x h; cases n <;> simp [List.get?] at h
  | cons a t ih =>
    intro n d x h
    cases n with
    | zero => simpa [List.getD] using h
    | succ n => simpa [List.getD] using ih n d x h

theorem list_mem_get? {α : Type} :
    ∀ (l : List α) (x : α), x ∈ l → ∃ n, l.get? n = some x := by
  intro l
  induction l with
  | nil => intro x hx; cases hx
  | cons a t ih =>
    intro x hx
    cases hx with
    | head => exact ⟨0, rfl⟩
    | tail _ hmem =>
      obtain ⟨n, hn⟩ := ih x hmem
      exact ⟨n + 1, hn⟩

theorem instOffsetsFrom_length (ei : EncInfo) (encs : EntityMap Encoding) :
    ∀ (l : List Inst) (off : Nat), (instOffsetsFrom ei encs off l).length = l.length := by
  intro l
  induction l with
  | nil => intro off; rfl
  | cons a t ih => intro off; simp [instOffsetsFrom, ih]

theorem instOffsetsFrom_entries (ei : EncInfo) (encs : EntityMap Encoding) :
    ∀ (l : List Inst) (off k : Nat) (t : CodeOffset × Inst × CodeOffset),
      (instOffsetsFrom ei encs off l).get? k = some t →
      l.get? k = some t.2.1 ∧ t.2.2 = ei.bytes (encs.get defaultEncoding t.2.1) := by
  intro l
  induction l with
  | nil => intro off k t h; cases k <;> simp [instOffsetsFrom, List.get?] at h
  | cons a rest ih =>
    intro off k t h
    cases k with
    | zero =>
      have h2 : (off, a, ei.bytes (encs.get defaultEncoding a)) = t := by
        simpa [instOffsetsFrom] using h
      subst h2
      exact ⟨rfl, rfl⟩
    | succ k =>
      simp only [instOffsetsFrom, List.get?] at h ⊢
      exact ih _ _ _ h

theorem instOffsetsFrom_head (ei : EncInfo) (encs : EntityMap Encoding) :
    ∀ (l : List Inst) (off : Nat) (t : CodeOffset × Inst × CodeOffset),
      (instOffsetsFrom ei encs off l).get? 0 = some t → t.1 = off := by
  intro l off t h
  cases l with
  | nil => simp [instOffsetsFrom, List.get?] at h
  | cons a rest =>
    have h2 : (off, a, ei.bytes (encs.get defaultEncoding a)) = t := by
      simpa [instOffsetsFrom] using h
    rw [← h2]

theorem instOffsetsFrom_chain (ei : EncInfo) (encs : EntityMap Encoding) :
    ∀ (l : List Inst) (off k : Nat) (t u : CodeOffset × Inst × CodeOffset),
      (instOffsetsFrom ei encs off l).get? k = some t →
      (instOffsetsFrom ei encs off l).get? (k + 1) = some u →
      u.1 = t.1 + t.2.2 := by
  intro l
  induction l with
  | nil => intro off k t u ht _; cases k <;> simp [instOffsetsFrom, List.get?] at ht
  | cons a rest ih =>
    intro off k t u ht hu
    cases k with
    | zero =>
      have h2 : (off, a, ei.bytes (encs.get defaultEncoding a)) = t := by
        simpa [instOffsetsFrom] using ht
      have h3 : u.1 = off + ei.bytes (encs.get defaultEncoding a) := by
        apply instOffsetsFrom_head ei encs rest _ u
        simpa [instOffsetsFrom, List.get?] using hu
      rw [← h2]
      exact h3
    | succ k =>
      simp only [instOffsetsFrom, List.get?] at ht hu
      exact ih _ _ _ _ ht hu

theorem lastMatchIdx_eq_none_iff {α : Type} (p : α → Bool) :
    ∀ (l : List α), lastMatchIdx p l = none ↔ ∀ a ∈ l, p a = false := by
  intro l
  induction l with
  | nil => simp [lastMatchIdx]
  | cons a t ih =>
    cases h : lastMatchIdx p t with
    | some i =>
      simp only [lastMatchIdx, h, List.forall_mem_cons]
      constructor
      · intro hc; cases hc
      · intro hc
        have := ih.mpr hc.2
        rw [this] at h
        cases h
    | none =>
      cases hpa : p a with
      | true => simp [lastMatchIdx, h, hpa]
      | false =>
        have hnone : lastMatchIdx p (a :: t) = none := by
          simp [lastMatchIdx, h, hpa]
        rw [hnone]
        constructor
        · intro _
          exact List.forall_mem_cons.mpr ⟨hpa, ih.mp h⟩
        · intro _
          rfl

theorem lastMatchIdx_eq_some_of {α : Type} (p : α → Bool) (d : α) :
    ∀ (l : List α) (i : Nat), i < l.length → p (l.getD i d) = true →
      (∀ j, i < j → j < l.length → p (l.getD j d) = false) →
      lastMatchIdx p l = some i := by
  intro l
  induction l with
  | nil => intro i hi _ _; exact absurd hi (Nat.not_lt_zero i)
  | cons a t ih =>
    intro i hi hp hafter
    cases i with
    | zero =>
      have htnone : lastMatchIdx p t = none := by
        rw [lastMatchIdx_eq_none_iff]
        intro x hx
        obtain ⟨j, hj⟩ := list_mem_get? t x hx
        have hjlen : j < t.length := list_get?_some_lt t j x hj
        have hx2 : (a :: t).getD (j + 1) d = x := list_getD_of_get? t j d x hj
        have := hafter (j + 1) (Nat.succ_pos j) (Nat.succ_lt_succ hjlen)
        rw [hx2] at this
        exact this
      have hpa : p a = true := hp
      simp [lastMatchIdx, htnone, hpa]
    | succ i =>
      have ht : lastMatchIdx p t = some i := by
        apply ih i (Nat.lt_of_succ_lt_succ hi) hp
        intro j hj1 hj2
        exact hafter (j + 1) (Nat.succ_lt_succ hj1) (Nat.succ_lt_succ hj2)
      simp [lastMatchIdx, ht]

/-! ### Claim theorems -/

/-- Claim C1, counterexample: the claim asserts that after `clear()` the stack
limit is `None`; on the concrete function whose stack limit is `some 0`,
`clear()` leaves the stack limit at `some 0`, not `none` (while the name is
indeed preserved). -/
theorem spec_c1_counterexample :
    (Function.clear exStackLimitFun).stack_limit ≠ none ∧
    (Function.clear exStackLimitFun).name = exStackLimitFun.name := by
  constructor
  · intro h; simp [Function.clear, exStackLimitFun] at h
  · rfl

/-- Claim C1, amended: after `f.clear()` the observable state equals that of a
freshly constructed Function except for the name AND the stack limit: every
declaration table and side table is empty, the calling convention is reset to
`Fast`, the name is preserved, and the stack limit is also preserved (`clear`
does not touch the `stack_limit` field). -/
theorem spec_c1_clear_equiv_fresh (f : Function) :
    Function.clear f =
      { Function.new with name := f.name, stack_limit := f.stack_limit } := rfl

/-- Claim C6: `set_stack_limit(x)` returns the previous stack limit, replaces
it by `x`, and modifies nothing else; in particular the
`some g1` / `some g2` / `none` swap sequence returns `some g1` then
`some g2`. -/
theorem spec_c6_set_stack_limit (f : Function) (x : Option GlobalVar) (g1 g2 : GlobalVar) :
    (f.set_stack_limit x).1 = f.stack_limit ∧
    (f.set_stack_limit x).2 = { f with stack_limit := x } ∧
    ((f.set_stack_limit (some g1)).2.set_stack_limit (some g2)).1 = some g1 ∧
    (((f.set_stack_limit (some g1)).2.set_stack_limit (some g2)).2.set_stack_limit none).1
      = some g2 :=
  ⟨rfl, rfl, rfl, rfl⟩

/-- Claim C10: the default textual rendering and the debug rendering of a
Function both produce exactly the text of `f.display(None)` — all three paths
invoke `write_function` with no ISA context. -/
theorem spec_c10_display_equiv (f : Function) :
    f.fmtDisplay = (f.display none).fmt ∧ f.fmtDebug = (f.display none).fmt :=
  ⟨rfl, rfl⟩

/-- Claim C9: `pretty_error` renders a verifier error in the detailed form —
the error message, prefixed rendering of the offending instruction when the
location is instruction-scoped (only the message and a newline otherwise),
followed by a dump of the whole function — and renders any other error kind as
its plain description alone. -/
theorem spec_c9_pretty_error (f : Function) (isa : Option TargetIsa) (e : VerifierError)
    (s : String) :
    pretty_error f isa (CodegenError.verifier e) = pretty_verifier_error f isa e ∧
    (∀ i, e.location = AnyEntity.inst i →
      pretty_verifier_error f isa e =
        e.to_string ++ "\n" ++ instName i ++ ": " ++ f.dfg.display_inst i isa ++ "\n\n"
          ++ (f.display isa).fmt) ∧
    ((∀ i, e.location ≠ AnyEntity.inst i) →
      pretty_verifier_error f isa e = e.to_string ++ "\n" ++ (f.display isa).fmt) ∧
    pretty_error f isa (CodegenError.other s) = s := by
  refine ⟨rfl, ?_, ?_, rfl⟩
  · intro i hi
    simp [pretty_verifier_error, hi]
  · intro h
    cases hl : e.location with
    | inst i => exact absurd hl (h i)
    | functionEntity => simp [pretty_verifier_error, hl]
    | ebb b => simp [pretty_verifier_error, hl]
    | stackSlot ss => simp [pretty_verifier_error, hl]

/-- Claim C9 witness: the detailed form at a concrete instruction-scoped
verifier error on a concrete function. -/
theorem spec_c9_witness :
    pretty_verifier_error Function.new none exVerifierErr =
      exVerifierErr.to_string ++ "\n" ++ instName 3 ++ ": "
        ++ Function.new.dfg.display_inst 3 none ++ "\n\n"
        ++ (Function.new.display none).fmt :=
  (spec_c9_pretty_error Function.new none exVerifierErr ("x")).2.1 3 rfl

/-- Claim C4: `inst_offsets` fails fatally (embedded as `none`) exactly when
the offsets table is empty — no offset pass has run — and succeeds, returning
the iterator's contents, whenever the offsets table is non-empty. -/
theorem spec_c4_inst_offsets_precondition (f : Function) (ebb : Ebb) (ei : EncInfo) :
    (f.offsets.is_empty = true → f.inst_offsets ebb ei = none) ∧
    (f.offsets.is_empty = false → ∃ l, f.inst_offsets ebb ei = some l) := by
  constructor
  · intro h
    simp [Function.inst_offsets, h]
  · intro h
    refine ⟨instOffsetsFrom ei f.encodings (f.offsets.get 0 ebb) (f.layout.ebb_insts ebb), ?_⟩
    simp [Function.inst_offsets, h]

/-- Claim C4 witness: a fresh function has an empty offsets table and the call
fails; after the simulated offset pass of `exOffsetsFun` the table is
non-empty and the call succeeds. -/
theorem spec_c4_witness :
    Function.new.offsets.is_empty = true ∧
    Function.new.inst_offsets 0 exEncInfo = none ∧
    exOffsetsFun.offsets.is_empty = false ∧
    (∃ l, exOffsetsFun.inst_offsets 0 exEncInfo = some l) :=
  ⟨rfl, (spec_c4_inst_offsets_precondition Function.new 0 exEncInfo).1 rfl, rfl,
    (spec_c4_inst_offsets_precondition exOffsetsFun 0 exEncInfo).2 rfl⟩

/-- Claim C3: `update_encoding(inst, isa)` succeeds exactly when
`encode(inst, isa)` succeeds; on success it stores the returned encoding into
the encodings table at key `inst` (all other entries unchanged), and on
failure it returns the legalization directive and leaves the whole function —
in particular `inst`'s encodings entry — unchanged. -/
theorem spec_c3_update_encoding (f : Function) (inst : Inst) (isa : TargetIsa) :
    (∀ e, f.encode inst isa = Except.ok e →
      (f.update_encoding inst isa).1 = Except.ok () ∧
      (f.update_encoding inst isa).2.encodings.get defaultEncoding inst = e ∧
      (∀ j, j ≠ inst →
        (f.update_encoding inst isa).2.encodings.get defaultEncoding j =
          f.encodings.get defaultEncoding j) ∧
      (f.update_encoding inst isa).2 = { f with encodings := f.encodings.set inst e }) ∧
    (∀ l, f.encode inst isa = Except.error l →
      f.update_encoding inst isa = (Except.error l, f)) := by
  constructor
  · intro e he
    refine ⟨?_, ?_, ?_, ?_⟩
    · simp [Function.update_encoding, he]
    · simp [Function.update_encoding, he, entityMap_get_set_self]
    · intro j hj
      simp [Function.update_encoding, he, entityMap_get_set_ne _ _ _ _ _ hj]
    · simp [Function.update_encoding, he]
  · intro l hl
    simp [Function.update_encoding, hl]

/-- Claim C3 witness: on a concrete function and ISA, instruction 1 encodes
successfully and its entry is updated, while instruction 0 yields the
legalization directive and leaves the function unchanged. -/
theorem spec_c3_witness :
    exEncodeFun.encode 1 exIsa = Except.ok (some (7, 7)) ∧
    (exEncodeFun.update_encoding 1 exIsa).1 = Except.ok () ∧
    (exEncodeFun.update_encoding 1 exIsa).2.encodings.get defaultEncoding 1 = some (7, 7) ∧
    exEncodeFun.encode 0 exIsa = Except.error ⟨42⟩ ∧
    exEncodeFun.update_encoding 0 exIsa = (Except.error ⟨42⟩, exEncodeFun) :=
  ⟨rfl,
    ((spec_c3_update_encoding exEncodeFun 1 exIsa).1 (some (7, 7)) rfl).1,
    ((spec_c3_update_encoding exEncodeFun 1 exIsa).1 (some (7, 7)) rfl).2.1,
    rfl,
    (spec_c3_update_encoding exEncodeFun 0 exIsa).2 ⟨42⟩ rfl⟩

/-- Claim C2: when `inst_offsets(b, encinfo)` succeeds with list `l`, `l` has
one triple per instruction of the block in layout order; the instruction
component of the k-th triple is the block's k-th instruction; each size is the
byte size `encinfo` assigns to that instruction's stored encoding (0 if
unencoded, by the `bytes` lookup); the first offset is the block's precomputed
start offset from the offsets table; and each following offset is the previous
offset plus the previous size. -/
theorem spec_c2_inst_offsets (f : Function) (ebb : Ebb) (ei : EncInfo)
    (l : List (CodeOffset × Inst × CodeOffset))
    (h : f.inst_offsets ebb ei = some l) :
    l.length = (f.layout.ebb_insts ebb).length ∧
    (∀ k t, l.get? k = some t →
      (f.layout.ebb_insts ebb).get? k = some t.2.1 ∧
      t.2.2 = ei.bytes (f.encodings.get defaultEncoding t.2.1)) ∧
    (∀ t, l.get? 0 = some t → t.1 = f.offsets.get 0 ebb) ∧
    (∀ k t u, l.get? k = some t → l.get? (k + 1) = some u → u.1 = t.1 + t.2.2) := by
  have hl : l = instOffsetsFrom ei f.encodings (f.offsets.get 0 ebb) (f.layout.ebb_insts ebb) := by
    cases he : f.offsets.is_empty with
    | true => simp [Function.inst_offsets, he] at h
    | false =>
      simp only [Function.inst_offsets, he, Bool.false_eq_true, if_false,
        Option.some.injEq] at h
      exact h.symm
  subst hl
  refine ⟨instOffsetsFrom_length ei f.encodings _ _, ?_, ?_, ?_⟩
  · intro k t ht
    exact instOffsetsFrom_entries ei f.encodings _ _ k t ht
  · intro t ht
    exact instOffsetsFrom_head ei f.encodings _ _ t ht
  · intro k t u ht hu
    exact instOffsetsFrom_chain ei f.encodings _ _ k t u ht hu

/-- Claim C2 witness: on the concrete function with block start offset 0 and
instruction sizes 2, 4, 2, the iterator yields exactly
`(0, inst1, 2), (2, inst2, 4), (6, inst3, 2)`, and the offsets chain as the
theorem states. -/
theorem spec_c2_witness :
    exOffsetsFun.inst_offsets 0 exEncInfo = some [(0, 1, 2), (2, 2, 4), (6, 3, 2)] ∧
    (∀ k t u,
      ([(0, 1, 2), (2, 2, 4), (6, 3, 2)] : List (CodeOffset × Inst × CodeOffset)).get? k
        = some t →
      ([(0, 1, 2), (2, 2, 4), (6, 3, 2)] : List (CodeOffset × Inst × CodeOffset)).get? (k + 1)
        = some u →
      u.1 = t.1 + t.2.2) :=
  ⟨rfl,
    (spec_c2_inst_offsets exOffsetsFun 0 exEncInfo [(0, 1, 2), (2, 2, 4), (6, 3, 2)] rfl).2.2.2⟩

/-- Claim C5: with no blocks in the layout, `special_param` fails fatally with
"Function is empty"; with an entry block, it returns `none` when no parameter
has the requested purpose, and otherwise the entry-block value at the index of
the **last** parameter whose purpose matches. -/
theorem spec_c5_special_param (f : Function) (purpose : ArgumentPurpose) :
    (f.layout.entry_block = none →
      f.special_param purpose = Except.error ("Function is empty")) ∧
    (∀ entry, f.layout.entry_block = some entry →
      ((∀ p ∈ f.signature.params, p.purpose ≠ purpose) →
        f.special_param purpose = Except.ok none) ∧
      (∀ i, i < f.signature.params.length →
        (f.signature.params.getD i ⟨0, 0⟩).purpose = purpose →
        (∀ j, i < j → j < f.signature.params.length →
          (f.signature.params.getD j ⟨0, 0⟩).purpose ≠ purpose) →
        f.special_param purpose =
          Except.ok (some ((f.dfg.ebb_params entry).getD i 0)))) := by
  constructor
  · intro h
    simp [Function.special_param, h]
  · intro entry he
    constructor
    · intro hnone
      have hidx : f.signature.special_param_index purpose = none := by
        rw [Signature.special_param_index, lastMatchIdx_eq_none_iff]
        intro x hx
        exact beq_eq_false_iff_ne.mpr (hnone x hx)
      simp [Function.special_param, he, hidx]
    · intro i hi hp hafter
      have hidx : f.signature.special_param_index purpose = some i := by
        apply lastMatchIdx_eq_some_of _ ⟨0, 0⟩ _ i hi
        · simp only [beq_iff_eq]
          exact hp
        · intro j hj1 hj2
          exact beq_eq_false_iff_ne.mpr (hafter j hj1 hj2)
      simp [Function.special_param, he, hidx]

/-- Claim C5 witness: a fresh function (no blocks) fails with "Function is
empty"; on the concrete function with parameter purposes 1, 2, 2 and
entry-block values 10, 11, 12, purpose 5 yields `none` and purpose 2 yields
the value of the last matching parameter, 12. -/
theorem spec_c5_witness :
    Function.new.special_param 2 = Except.error ("Function is empty") ∧
    exSpecialFun.special_param 5 = Except.ok none ∧
    exSpecialFun.special_param 2 = Except.ok (some 12) :=
  ⟨(spec_c5_special_param Function.new 2).1 rfl,
    ((spec_c5_special_param exSpecialFun 5).2 0 rfl).1 (by decide),
    ((spec_c5_special_param exSpecialFun 2).2 0 rfl).2 2 (by decide) (by decide)
      (by intro j h1 h2; have h3 : j < 3 := h2; omega)⟩

/-- Claim C7: for a jump table of length N created by `create_jump_table` and
any index `i < N`, `insert_jump_table_entry` succeeds; reading entry `i`
afterwards yields the inserted block, every other index is unchanged, and
every other jump table is unchanged; an out-of-range index is fatal (`none`),
not a recoverable error. -/
theorem spec_c7_jump_table (f : Function) (data : JumpTableData) (i : Nat) (b : Ebb) :
    (i < data.len →
      ∃ f2,
        ((f.create_jump_table data).2).insert_jump_table_entry
            (f.create_jump_table data).1 i b = some f2 ∧
        (∃ d2, f2.jump_tables.get? (f.create_jump_table data).1 = some d2 ∧
          d2.get_entry i = some (some b) ∧
          (∀ j, j ≠ i → d2.get_entry j = data.get_entry j)) ∧
        (∀ k, k ≠ (f.create_jump_table data).1 →
          f2.jump_tables.get? k = ((f.create_jump_table data).2).jump_tables.get? k)) ∧
    (data.len ≤ i →
      ((f.create_jump_table data).2).insert_jump_table_entry
          (f.create_jump_table data).1 i b = none) := by
  have hjt : ((f.create_jump_table data).2).jump_tables.get? (f.create_jump_table data).1
      = some data := by
    simp only [Function.create_jump_table, PrimaryMap.push, PrimaryMap.get?]
    exact list_get?_concat_self _ _
  constructor
  · intro hi
    have hilen : i < data.table.length := hi
    refine ⟨{ (f.create_jump_table data).2 with
        jump_tables := ((f.create_jump_table data).2).jump_tables.set
          (f.create_jump_table data).1 ⟨data.table.set i (some b)⟩ },
      ?_, ⟨⟨data.table.set i (some b)⟩, ?_, ?_, ?_⟩, ?_⟩
    · simp [Function.insert_jump_table_entry, hjt, JumpTableData.set_entry, hilen]
    · simp only [PrimaryMap.set, PrimaryMap.get?]
      apply list_get?_set_self
      have : (f.create_jump_table data).1 < ((f.create_jump_table data).2).jump_tables.len :=
        list_get?_some_lt _ _ _ hjt
      exact this
    · exact list_get?_set_self data.table i (some b) hilen
    · intro j hj
      exact list_get?_set_ne data.table i j (some b) (fun h => hj h.symm)
    · intro k hk
      simp only [PrimaryMap.set, PrimaryMap.get?]
      exact list_get?_set_ne _ _ _ _ (fun h => hk h.symm)
  · intro hge
    have : ¬ i < data.table.length := Nat.not_lt.mpr hge
    simp [Function.insert_jump_table_entry, hjt, JumpTableData.set_entry, this]

/-- Claim C7 witness: on a fresh function and a jump table of length 2 with
placeholder entries, inserting block 9 at index 1 succeeds with the stated
roundtrip properties, and inserting at index 5 is fatal. -/
theorem spec_c7_witness :
    (∃ f2,
      ((Function.new.create_jump_table exJTData).2).insert_jump_table_entry
          (Function.new.create_jump_table exJTData).1 1 9 = some f2 ∧
      (∃ d2, f2.jump_tables.get? (Function.new.create_jump_table exJTData).1 = some d2 ∧
        d2.get_entry 1 = some (some 9) ∧
        (∀ j, j ≠ 1 → d2.get_entry j = exJTData.get_entry j)) ∧
      (∀ k, k ≠ (Function.new.create_jump_table exJTData).1 →
        f2.jump_tables.get? k
          = ((Function.new.create_jump_table exJTData).2).jump_tables.get? k)) ∧
    ((Function.new.create_jump_table exJTData).2).insert_jump_table_entry
        (Function.new.create_jump_table exJTData).1 5 9 = none :=
  ⟨(spec_c7_jump_table Function.new exJTData 1 9).1 (by decide),
    (spec_c7_jump_table Function.new exJTData 5 9).2 (by decide)⟩

theorem applyDecl_stack_slots (g : Function) (d : Decl) :
    g.stack_slots.len ≤ (applyDecl g d).stack_slots.len ∧
    ∀ k, k < g.stack_slots.len → (applyDecl g d).stack_slots.get? k = g.stack_slots.get? k := by
  cases d with
  | stackSlot v =>
    constructor
    · simp only [applyDecl, Function.create_stack_slot, PrimaryMap.push, PrimaryMap.len,
        List.length_append, List.length_cons, List.length_nil]
      omega
    · intro k hk
      simp only [applyDecl, Function.create_stack_slot, PrimaryMap.push, PrimaryMap.get?]
      exact list_get?_append_left _ _ k hk
  | globalVar v => exact ⟨Nat.le_refl _, fun k _ => rfl⟩
  | heap v => exact ⟨Nat.le_refl _, fun k _ => rfl⟩
  | jumpTable v => exact ⟨Nat.le_refl _, fun k _ => rfl⟩

theorem applyDecl_global_vars (g : Function) (d : Decl) :
    g.global_vars.len ≤ (applyDecl g d).global_vars.len ∧
    ∀ k, k < g.global_vars.len → (applyDecl g d).global_vars.get? k = g.global_vars.get? k := by
  cases d with
  | globalVar v =>
    constructor
    · simp only [applyDecl, Function.create_global_var, PrimaryMap.push, PrimaryMap.len,
        List.length_append, List.length_cons, List.length_nil]
      omega
    · intro k hk
      simp only [applyDecl, Function.create_global_var, PrimaryMap.push, PrimaryMap.get?]
      exact list_get?_append_left _ _ k hk
  | stackSlot v => exact ⟨Nat.le_refl _, fun k _ => rfl⟩
  | heap v => exact ⟨Nat.le_refl _, fun k _ => rfl⟩
  | jumpTable v => exact ⟨Nat.le_refl _, fun k _ => rfl⟩

theorem applyDecl_heaps (g : Function) (d : Decl) :
    g.heaps.len ≤ (applyDecl g d).heaps.len ∧
    ∀ k, k < g.heaps.len → (applyDecl g d).heaps.get? k = g.heaps.get? k := by
  cases d with
  | heap v =>
    constructor
    · simp only [applyDecl, Function.create_heap, PrimaryMap.push, PrimaryMap.len,
        List.length_append, List.length_cons, List.length_nil]
      omega
    · intro k hk
      simp only [applyDecl, Function.create_heap, PrimaryMap.push, PrimaryMap.get?]
      exact list_get?_append_left _ _ k hk
  | stackSlot v => exact ⟨Nat.le_refl _, fun k _ => rfl⟩
  | globalVar v => exact ⟨Nat.le_refl _, fun k _ => rfl⟩
  | jumpTable v => exact ⟨Nat.le_refl _, fun k _ => rfl⟩

theorem applyDecl_jump_tables (g : Function) (d : Decl) :
    g.jump_tables.len ≤ (applyDecl g d).jump_tables.len ∧
    ∀ k, k < g.jump_tables.len → (applyDecl g d).jump_tables.get? k = g.jump_tables.get? k := by
  cases d with
  | jumpTable v =>
    constructor
    · simp only [applyDecl, Function.create_jump_table, PrimaryMap.push, PrimaryMap.len,
        List.length_append, List.length_cons, List.length_nil]
      omega
    · intro k hk
      simp only [applyDecl, Function.create_jump_table, PrimaryMap.push, PrimaryMap.get?]
      exact list_get?_append_left _ _ k hk
  | stackSlot v => exact ⟨Nat.le_refl _, fun k _ => rfl⟩
  | globalVar v => exact ⟨Nat.le_refl _, fun k _ => rfl⟩
  | heap v => exact ⟨Nat.le_refl _, fun k _ => rfl⟩

theorem applyDecls_table_stable {α : Type} (proj : Function → PrimaryMap α)
    (hstep : ∀ g d, (proj g).len ≤ (proj (applyDecl g d)).len ∧
      ∀ k, k < (proj g).len → (proj (applyDecl g d)).get? k = (proj g).get? k) :
    ∀ (ds : List Decl) (g : Function),
      (proj g).len ≤ (proj (applyDecls g ds)).len ∧
      ∀ k, k < (proj g).len → (proj (applyDecls g ds)).get? k = (proj g).get? k := by
  intro ds
  induction ds with
  | nil => intro g; exact ⟨Nat.le_refl _, fun k _ => rfl⟩
  | cons d rest ih =>
    intro g
    have h1 := hstep g d
    have h2 := ih (applyDecl g d)
    refine ⟨Nat.le_trans h1.1 h2.1, fun k hk => ?_⟩
    show (proj (applyDecls (applyDecl g d) rest)).get? k = (proj g).get? k
    rw [h2.2 k (Nat.lt_of_lt_of_le hk h1.1), h1.2 k hk]

/-- Claim C8: across any sequence of `create*` declarations (and no `clear`),
each declaration table's length is non-decreasing and every existing handle
still resolves to the same stored value; the handle returned by each `create*`
call resolves to its value after any later declarations; and `clear` resets
every declaration table's length to 0. -/
theorem spec_c8_handle_stability (f : Function) (ds : List Decl) (v : StackSlotData)
    (w : GlobalVarData) (x : HeapData) (y : JumpTableData) :
    (f.stack_slots.len ≤ (applyDecls f ds).stack_slots.len ∧
      ∀ k, k < f.stack_slots.len →
        (applyDecls f ds).stack_slots.get? k = f.stack_slots.get? k) ∧
    (f.global_vars.len ≤ (applyDecls f ds).global_vars.len ∧
      ∀ k, k < f.global_vars.len →
        (applyDecls f ds).global_vars.get? k = f.global_vars.get? k) ∧
    (f.heaps.len ≤ (applyDecls f ds).heaps.len ∧
      ∀ k, k < f.heaps.len → (applyDecls f ds).heaps.get? k = f.heaps.get? k) ∧
    (f.jump_tables.len ≤ (applyDecls f ds).jump_tables.len ∧
      ∀ k, k < f.jump_tables.len →
        (applyDecls f ds).jump_tables.get? k = f.jump_tables.get? k) ∧
    ((applyDecls (f.create_stack_slot v).2 ds).stack_slots.get? (f.create_stack_slot v).1
      = some v) ∧
    ((applyDecls (f.create_global_var w).2 ds).global_vars.get? (f.create_global_var w).1
      = some w) ∧
    ((applyDecls (f.create_heap x).2 ds).heaps.get? (f.create_heap x).1 = some x) ∧
    ((applyDecls (f.create_jump_table y).2 ds).jump_tables.get? (f.create_jump_table y).1
      = some y) ∧
    (Function.clear f).stack_slots.len = 0 ∧
    (Function.clear f).global_vars.len = 0 ∧
    (Function.clear f).heaps.len = 0 ∧
    (Function.clear f).jump_tables.len = 0 := by
  have hss := applyDecls_table_stable (fun g => g.stack_slots) applyDecl_stack_slots ds
  have hgv := applyDecls_table_stable (fun g => g.global_vars) applyDecl_global_vars ds
  have hhp := applyDecls_table_stable (fun g => g.heaps) applyDecl_heaps ds
  have hjt := applyDecls_table_stable (fun g => g.jump_tables) applyDecl_jump_tables ds
  refine ⟨hss f, hgv f, hhp f, hjt f, ?_, ?_, ?_, ?_, rfl, rfl, rfl, rfl⟩
  · have h1 : (f.create_stack_slot v).2.stack_slots.get? (f.create_stack_slot v).1
        = some v := by
      simp only [Function.create_stack_slot, PrimaryMap.push, PrimaryMap.get?]
      exact list_get?_concat_self _ _
    have h2 : (f.create_stack_slot v).1 < (f.create_stack_slot v).2.stack_slots.len :=
      list_get?_some_lt _ _ _ h1
    rw [(hss (f.create_stack_slot v).2).2 _ h2]
    exact h1
  · have h1 : (f.create_global_var w).2.global_vars.get? (f.create_global_var w).1
        = some w := by
      simp only [Function.create_global_var, PrimaryMap.push, PrimaryMap.get?]
      exact list_get?_concat_self _ _
    have h2 : (f.create_global_var w).1 < (f.create_global_var w).2.global_vars.len :=
      list_get?_some_lt _ _ _ h1
    rw [(hgv (f.create_global_var w).2).2 _ h2]
    exact h1
  · have h1 : (f.create_heap x).2.heaps.get? (f.create_heap x).1 = some x := by
      simp only [Function.create_heap, PrimaryMap.push, PrimaryMap.get?]
      exact list_get?_concat_self _ _
    have h2 : (f.create_heap x).1 < (f.create_heap x).2.heaps.len :=
      list_get?_some_lt _ _ _ h1
    rw [(hhp (f.create_heap x).2).2 _ h2]
    exact h1
  · have h1 : (f.create_jump_table y).2.jump_tables.get? (f.create_jump_table y).1
        = some y := by
      simp only [Function.create_jump_table, PrimaryMap.push, PrimaryMap.get?]
      exact list_get?_concat_self _ _
    have h2 : (f.create_jump_table y).1 < (f.create_jump_table y).2.jump_tables.len :=
      list_get?_some_lt _ _ _ h1
    rw [(hjt (f.create_jump_table y).2).2 _ h2]
    exact h1

/-- Claim C8 witness: on a concrete base function with one stack slot and a
concrete later declaration sequence, the existing handle 0 still resolves to
the same value, a freshly created global-variable handle resolves to its value
after the later declarations, and `clear` resets the table length to 0. -/
theorem spec_c8_witness :
    (applyDecls exC8Base exC8Decls).stack_slots.get? 0 = exC8Base.stack_slots.get? 0 ∧
    (applyDecls (exC8Base.create_global_var 11).2 exC8Decls).global_vars.get?
      (exC8Base.create_global_var 11).1 = some 11 ∧
    (Function.clear exC8Base).stack_slots.len = 0 :=
  ⟨(spec_c8_handle_stability exC8Base exC8Decls 0 0 0 ⟨[]⟩).1.2 0 (by decide),
    (spec_c8_handle_stability exC8Base exC8Decls 0 11 0 ⟨[]⟩).2.2.2.2.2.1,
    (spec_c8_handle_stability exC8Base exC8Decls 0 0 0 ⟨[]⟩).2.2.2.2.2.2.2.2.1⟩

end Cretonne
